import Mathlib

/-!
Verification of the USync transport engine against its specification.

This file gives a shallow embedding, in Lean, of the pure parts of the
USync source (chunk planner, wire codec, verification dispatch, report
aggregation, sending-order demultiplexing, pacing-timer poll, bus
registry, and the per-chunk decoder loop), and proves or refutes the
frozen claims about them.

Machine integers are modelled as `Nat` with explicit `% 2^w` where the
source's wrapping behaviour matters; byte strings are `List Nat` whose
encoding functions only emit values `< 256`; external library calls
(ed25519-dalek, blake3, raptorq) are abstracted as parameters, since the
source treats those crates as out-of-scope collaborators.
-/

namespace USync

/-! ## Constants (src/constants.rs) -/

def MTU : Nat := 1490
def DEFAULT_PAGE_SIZE : Nat := 4096
def DEFAULT_PAGE_CHUNKS : Nat := 8192
def CHUNK_SIZE : Nat := DEFAULT_PAGE_CHUNKS * DEFAULT_PAGE_SIZE
def DEFAULT_FRAME_LEN : Nat := 1440
def TRANSMISSION_INFO_LENGTH : Nat := 12
def VERSION : Nat := 1
def PUB_KEY_LENGTH : Nat := 32

/-! ## Chunk planner (src/plan.rs, `make_plan`)

`make_plan` in the source returns an iterator
`(0..full_chunks_used).map(..) ++ once(tail_1).filter(len > 0) ++ once(tail_2)`;
we materialise it as a list.  Rust's `checked_sub(1).unwrap_or_default()`
on `u64` is saturating subtraction, i.e. `Nat.sub`; `div_ceil(2)` on
naturals is `(n + 1) / 2`. -/

def make_plan (file_length : Nat) : List (Nat × Nat) :=
  let full_chunks := file_length / CHUNK_SIZE
  let full_chunks_used := full_chunks - 1
  let tail_1_offset := full_chunks_used * CHUNK_SIZE
  let remain_bytes := file_length - tail_1_offset
  let remain_pages := remain_bytes / DEFAULT_PAGE_SIZE
  let tail_1_len :=
    if remain_bytes > CHUNK_SIZE then ((remain_pages + 1) / 2) * DEFAULT_PAGE_SIZE else 0
  let tail_2_offset := tail_1_len + tail_1_offset
  let tail_2_len := file_length - tail_2_offset
  ((List.range full_chunks_used).map (fun x => (x * CHUNK_SIZE, CHUNK_SIZE)))
    ++ (if tail_1_len > 0 then [(tail_1_offset, tail_1_len)] else [])
    ++ [(tail_2_offset, tail_2_len)]

/-- `chainEnd s l` returns `some e` when the `(offset, length)` pairs of `l`
tile the byte range `[s, e)` contiguously (each offset equals the running
position), and `none` otherwise. -/
def chainEnd : Nat → List (Nat × Nat) → Option Nat
  | s, [] => some s
  | s, (o, len) :: rest => if o = s then chainEnd (s + len) rest else none

theorem chainEnd_append (l₁ l₂ : List (Nat × Nat)) (s : Nat) :
    chainEnd s (l₁ ++ l₂) = (chainEnd s l₁).bind (fun e => chainEnd e l₂) := by
  induction l₁ generalizing s with
  | nil => rfl
  | cons p rest ih =>
    obtain ⟨o, len⟩ := p
    simp only [List.cons_append, chainEnd]
    by_cases h : o = s
    · simp [h, ih]
    · simp [h]

theorem chainEnd_full_prefix (u : Nat) :
    chainEnd 0 ((List.range u).map (fun x => (x * CHUNK_SIZE, CHUNK_SIZE)))
      = some (u * CHUNK_SIZE) := by
  induction u with
  | zero => rfl
  | succ n ih =>
    rw [List.range_succ, List.map_append, chainEnd_append, ih]
    simp [chainEnd, Nat.succ_mul]

/-- The length the planner assigns to the penultimate ("tail 1") chunk. -/
def planTail1Len (L : Nat) : Nat :=
  if CHUNK_SIZE < L - (L / CHUNK_SIZE - 1) * CHUNK_SIZE then
    ((L - (L / CHUNK_SIZE - 1) * CHUNK_SIZE) / DEFAULT_PAGE_SIZE + 1) / 2 * DEFAULT_PAGE_SIZE
  else 0

theorem make_plan_eq (L : Nat) :
    make_plan L =
      ((List.range (L / CHUNK_SIZE - 1)).map (fun x => (x * CHUNK_SIZE, CHUNK_SIZE)))
      ++ (if 0 < planTail1Len L then
            [((L / CHUNK_SIZE - 1) * CHUNK_SIZE, planTail1Len L)] else [])
      ++ [(planTail1Len L + (L / CHUNK_SIZE - 1) * CHUNK_SIZE,
           L - (planTail1Len L + (L / CHUNK_SIZE - 1) * CHUNK_SIZE))] := rfl

theorem planTail1Len_mod (L : Nat) : planTail1Len L % DEFAULT_PAGE_SIZE = 0 := by
  unfold planTail1Len CHUNK_SIZE DEFAULT_PAGE_SIZE DEFAULT_PAGE_CHUNKS
  split <;> omega

theorem planTail1Len_le (L : Nat) : planTail1Len L ≤ CHUNK_SIZE := by
  unfold planTail1Len CHUNK_SIZE DEFAULT_PAGE_SIZE DEFAULT_PAGE_CHUNKS
  split <;> omega

theorem plan_tail2_le (L : Nat) :
    L - (planTail1Len L + (L / CHUNK_SIZE - 1) * CHUNK_SIZE) ≤ CHUNK_SIZE := by
  unfold planTail1Len CHUNK_SIZE DEFAULT_PAGE_SIZE DEFAULT_PAGE_CHUNKS
  split <;> omega

theorem plan_tail2_offset_le (L : Nat) (hL : 1 ≤ L) :
    planTail1Len L + (L / CHUNK_SIZE - 1) * CHUNK_SIZE ≤ L := by
  unfold planTail1Len CHUNK_SIZE DEFAULT_PAGE_SIZE DEFAULT_PAGE_CHUNKS
  split <;> omega

/-- **C1.** For every file length `L ≥ 1`, the `(offset, length)` pairs returned
by `make_plan L` partition `[0, L)` contiguously (the first offset is `0`, each
offset equals the running sum of lengths, and the final offset plus length is
`L`); every offset and length except the last pair's is a multiple of
`PAGE_SIZE = 4096`; and no length in the sequence exceeds `CHUNK_SIZE = 32 MiB`. -/
theorem make_plan_partitions (L : Nat) (hL : 1 ≤ L) :
    chainEnd 0 (make_plan L) = some L ∧
    (∀ p ∈ (make_plan L).dropLast,
      p.1 % DEFAULT_PAGE_SIZE = 0 ∧ p.2 % DEFAULT_PAGE_SIZE = 0) ∧
    (∀ p ∈ make_plan L, p.2 ≤ CHUNK_SIZE) := by
  have hoff := plan_tail2_offset_le L hL
  refine ⟨?_, ?_, ?_⟩
  · rw [make_plan_eq, List.append_assoc, chainEnd_append, chainEnd_full_prefix]
    by_cases ht1 : 0 < planTail1Len L
    · rw [if_pos ht1]
      simp only [Option.some_bind, List.cons_append, List.nil_append]
      simp [chainEnd, Nat.add_comm]
      omega
    · rw [if_neg ht1]
      have ht0 : planTail1Len L = 0 := by omega
      simp only [Option.some_bind, List.nil_append, ht0, Nat.zero_add]
      simp [chainEnd]
      omega
  · rw [make_plan_eq, List.dropLast_concat]
    intro p hp
    rcases List.mem_append.mp hp with hpre | hmid
    · obtain ⟨x, _, hx⟩ := List.mem_map.mp hpre
      rw [← hx]
      refine ⟨?_, ?_⟩ <;>
        · show _ % DEFAULT_PAGE_SIZE = 0
          unfold CHUNK_SIZE DEFAULT_PAGE_SIZE DEFAULT_PAGE_CHUNKS
          omega
    · split at hmid
      · rw [List.mem_singleton.mp hmid]
        refine ⟨?_, planTail1Len_mod L⟩
        show _ % DEFAULT_PAGE_SIZE = 0
        unfold CHUNK_SIZE DEFAULT_PAGE_SIZE DEFAULT_PAGE_CHUNKS
        omega
      · cases hmid
  · rw [make_plan_eq]
    intro p hp
    rcases List.mem_append.mp hp with h12 | hlast
    · rcases List.mem_append.mp h12 with hpre | hmid
      · obtain ⟨x, _, hx⟩ := List.mem_map.mp hpre
        rw [← hx]
      · split at hmid
        · rw [List.mem_singleton.mp hmid]
          exact planTail1Len_le L
        · cases hmid
    · rw [List.mem_singleton.mp hlast]
      exact plan_tail2_le L

/-- Witness for `make_plan_partitions` at the concrete length from scenario S1. -/
theorem make_plan_partitions_witness :
    1 ≤ 17245233 ∧
    (chainEnd 0 (make_plan 17245233) = some 17245233 ∧
    (∀ p ∈ (make_plan 17245233).dropLast,
      p.1 % DEFAULT_PAGE_SIZE = 0 ∧ p.2 % DEFAULT_PAGE_SIZE = 0) ∧
    (∀ p ∈ make_plan 17245233, p.2 ≤ CHUNK_SIZE)) :=
  ⟨by norm_num, make_plan_partitions 17245233 (by norm_num)⟩

/-! ## Receiving-chunk reports (src/engine/mod.rs)

`ReceivingChunkReport` with its manual `Ord` instance: any `Finished` is
greater than any `WantNext`; within a variant, the inner offsets compare. -/

inductive ReceivingChunkReport where
  | WantNext (n : Nat)
  | Finished (n : Nat)
  deriving DecidableEq, Repr

/-- `impl Ord for ReceivingChunkReport` (src/engine/mod.rs:42-55). -/
def reportCmp : ReceivingChunkReport → ReceivingChunkReport → Ordering
  | .Finished a, .Finished b => compare a b
  | .Finished _, .WantNext _ => .gt
  | .WantNext _, .Finished _ => .lt
  | .WantNext a, .WantNext b => compare a b

/-- `Compare::cmax` (src/util/mod.rs:30-34): `if *self < other { *self = other }`,
where `<` means the `Ord` comparison returns `Less`. -/
def cmax (x other : ReceivingChunkReport) : ReceivingChunkReport :=
  if reportCmp x other = .lt then other else x

/-! ## Reporter state (src/engine/receiving.rs)

The `active` map `chunk_id → report` is modelled as an association list
(a deterministic stand-in for the source's `HashMap`); each key occurs at
most once by construction. -/

/-- Association-list lookup (the model of `HashMap::get`). -/
def alook {α : Type} : List (Nat × α) → Nat → Option α
  | [], _ => none
  | (k, v) :: t, c => if k = c then some v else alook t c

/-- `Reporter::update` (src/engine/receiving.rs:26-31):
`entry(chunk_id).and_modify(|x| x.cmax(report)).or_insert(report)`. -/
def reporterUpdate (m : List (Nat × ReceivingChunkReport)) (chunk_id : Nat)
    (report : ReceivingChunkReport) : List (Nat × ReceivingChunkReport) :=
  if (alook m chunk_id).isSome then
    m.map (fun kv => (kv.1, if kv.1 = chunk_id then cmax kv.2 report else kv.2))
  else
    m ++ [(chunk_id, report)]

/-- Apply a finite sequence of `(chunk_id, report)` updates to a reporter map. -/
def applyUpdates (us : List (Nat × ReceivingChunkReport)) :
    List (Nat × ReceivingChunkReport) :=
  us.foldl (fun m u => reporterUpdate m u.1 u.2) []

/-- The maximum of a list of reports under the `reportCmp` total order
(`none` for the empty list), folding with `cmax`. -/
def listMaxReport (rs : List ReceivingChunkReport) : Option ReceivingChunkReport :=
  rs.foldl (fun acc r => some (match acc with | none => r | some v => cmax v r)) none

theorem alook_append {α : Type} (m m' : List (Nat × α)) (c : Nat) :
    alook (m ++ m') c = if (alook m c).isSome then alook m c else alook m' c := by
  induction m with
  | nil => simp [alook]
  | cons kv t ih =>
    obtain ⟨k, v⟩ := kv
    by_cases hk : k = c <;> simp [alook, hk, ih]

theorem alook_map_modify {α : Type} (m : List (Nat × α)) (k c : Nat) (f : α → α) :
    alook (m.map (fun kv => (kv.1, if kv.1 = k then f kv.2 else kv.2))) c
      = if k = c then (alook m c).map f else alook m c := by
  induction m with
  | nil => simp [alook]
  | cons kv t ih =>
    obtain ⟨k', v⟩ := kv
    by_cases hk' : k' = c
    · subst hk'
      by_cases hkk : k' = k
      · subst hkk
        simp [alook, ih]
      · have hkk' : ¬(k = k') := fun h => hkk h.symm
        simp [alook, hkk, hkk', ih]
    · by_cases hkk : k' = k
      · have hc : ¬(k = c) := hkk ▸ hk'
        simp [alook, hk', hkk, hc, ih]
      · simp [alook, hk', hkk, ih]

theorem alook_reporterUpdate (m : List (Nat × ReceivingChunkReport)) (k c : Nat)
    (r : ReceivingChunkReport) :
    alook (reporterUpdate m k r) c
      = if k = c then
          some (match alook m c with | none => r | some v => cmax v r)
        else alook m c := by
  unfold reporterUpdate
  by_cases hs : (alook m k).isSome
  · rw [if_pos hs]
    have hmap := alook_map_modify m k c (fun x => cmax x r)
    simp only [] at hmap
    rw [hmap]
    by_cases hk : k = c
    · subst hk
      obtain ⟨v, hv⟩ := Option.isSome_iff_exists.mp hs
      simp [hv]
    · simp [hk]
  · rw [if_neg hs, alook_append]
    by_cases hk : k = c
    · subst hk
      have : alook m k = none := Option.not_isSome_iff_eq_none.mp hs
      simp [this, alook]
    · by_cases hc : (alook m c).isSome
      · simp [hc, hk]
      · have h0 : alook m c = none := Option.not_isSome_iff_eq_none.mp hc
        have hk' : ¬(k = c) := hk
        simp [h0, hk', alook]

theorem applyUpdates_aux (us : List (Nat × ReceivingChunkReport))
    (m : List (Nat × ReceivingChunkReport)) (c : Nat) :
    alook (us.foldl (fun m u => reporterUpdate m u.1 u.2) m) c
      = ((us.filter (fun u => u.1 == c)).map Prod.snd).foldl
          (fun acc r => some (match acc with | none => r | some v => cmax v r))
          (alook m c) := by
  induction us generalizing m with
  | nil => rfl
  | cons u t ih =>
    obtain ⟨k, r⟩ := u
    by_cases hk : k = c
    · subst hk
      rw [List.foldl_cons, ih, alook_reporterUpdate, if_pos rfl,
        List.filter_cons_of_pos (by simp), List.map_cons, List.foldl_cons]
    · rw [List.foldl_cons, ih, alook_reporterUpdate, if_neg hk,
        List.filter_cons_of_neg (by simp [hk])]

/-- **C4.** For every finite sequence of `(chunk_id, report)` updates applied to
a fresh `Reporter`, the stored entry for each chunk equals the maximum of all
reports received for that chunk under the total order in which any `Finished`
is greater than any `WantNext` and ties compare by inner offset; in particular
the sequence `[(1, WantNext 5), (1, Finished 3), (1, WantNext 10)]` leaves
chunk 1 at `Finished 3`. -/
theorem reporter_stores_max :
    (∀ (us : List (Nat × ReceivingChunkReport)) (c : Nat),
      alook (applyUpdates us) c
        = listMaxReport ((us.filter (fun u => u.1 == c)).map Prod.snd)) ∧
    alook (applyUpdates
        [(1, .WantNext 5), (1, .Finished 3), (1, .WantNext 10)]) 1
      = some (.Finished 3) := by
  constructor
  · intro us c
    exact applyUpdates_aux us [] c
  · decide

/-! ## Sender-side pacing timer (src/util/timer.rs)

Instants and durations are modelled as nanosecond counts (`Nat`);
`tokio::time::Instant::duration_since` saturates at zero, which is `Nat`
subtraction.  The source compares `can_send_num > 1.0` where
`can_send_num = (now - last_send).div_duration_f64(interval)`; for a
positive interval this is exactly `interval < now - last_send`, and
`can_send_num.floor()` is natural division `(now - last_send) / interval`.
`Duration::mul_f64` by the floored (integral) count is exact
multiplication. -/

def MAX_BURST : Nat := 8

structure SenderTimer where
  interval : Nat
  sleep_after : Nat
  exit_after : Nat
  last_send : Nat
  deriving DecidableEq, Repr

inductive SenderTimerOutput where
  | Send (k : Nat)
  | Close
  | Pending
  deriving DecidableEq, Repr

/-- `SenderTimer::poll` (src/util/timer.rs:56-94).  `Pending` stands for
`Poll::Pending` (with a wake-up armed); the waker field is not modelled. -/
def SenderTimer.poll (st : SenderTimer) (now : Nat) : SenderTimer × SenderTimerOutput :=
  if st.exit_after ≤ now then (st, .Close)
  else if st.sleep_after ≤ now then (st, .Pending)
  else if st.last_send + st.interval ≤ now ∧ st.interval < now - st.last_send then
    let can_send_num := (now - st.last_send) / st.interval
    ({ st with last_send := st.last_send + st.interval * can_send_num },
      .Send (min can_send_num MAX_BURST))
  else (st, .Pending)

/-- **C6 counterexample.** The claim asserts that a poll at exactly
`now = last_send + interval` (with `now` before both deadlines) returns
`Send(min(k, 8))` with `k = floor((now - last_send)/interval) = 1`.  The
source only fires when `can_send_num > 1.0` strictly, so at the exact
boundary it returns `Pending` instead. -/
theorem sender_timer_poll_boundary_counterexample :
    (({ interval := 10, sleep_after := 100, exit_after := 200, last_send := 0 } :
        SenderTimer).last_send + 10 ≤ 10 ∧ (10:Nat) < 100 ∧ (10:Nat) < 200) ∧
    (SenderTimer.poll
        { interval := 10, sleep_after := 100, exit_after := 200, last_send := 0 }
        10).2 = .Pending ∧
    (SenderTimer.poll
        { interval := 10, sleep_after := 100, exit_after := 200, last_send := 0 }
        10).2 ≠ .Send 1 := by
  decide

/-- **C6 (amended).** For every poll of the `SenderTimer` at time `now` with
`now < sleep_after` and `now < exit_after`: if `now` is *strictly* greater
than `last_send + interval` (the source tests `can_send_num > 1.0`, so exact
equality yields `Pending`), the poll returns `Send(min(k, 8))` where
`k = floor((now - last_send) / interval) ≥ 1` and advances `last_send` by
`k·interval`; and in every case a single poll never grants more than
`MAX_BURST = 8` permits. -/
theorem sender_timer_poll_send :
    (∀ (st : SenderTimer) (now : Nat), 0 < st.interval →
      now < st.sleep_after → now < st.exit_after →
      st.last_send + st.interval < now →
      1 ≤ (now - st.last_send) / st.interval ∧
      st.poll now =
        ({ st with last_send :=
            st.last_send + st.interval * ((now - st.last_send) / st.interval) },
          .Send (min ((now - st.last_send) / st.interval) MAX_BURST))) ∧
    (∀ (st : SenderTimer) (now : Nat) (n : Nat),
      (st.poll now).2 = .Send n → n ≤ MAX_BURST) := by
  constructor
  · intro st now hint hsleep hexit hdue
    have h1 : st.last_send + st.interval ≤ now := le_of_lt hdue
    have h2 : st.interval < now - st.last_send := by omega
    refine ⟨(Nat.one_le_div_iff hint).mpr (le_of_lt h2), ?_⟩
    unfold SenderTimer.poll
    rw [if_neg (by omega), if_neg (by omega), if_pos ⟨h1, h2⟩]
  · intro st now n
    unfold SenderTimer.poll
    split
    · intro h; cases h
    · split
      · intro h; cases h
      · split
        · intro h
          cases h
          exact Nat.min_le_right _ _
        · intro h; cases h

/-- Witness for `sender_timer_poll_send`: interval 10 ns, `now = 25`,
`last_send = 0`; the poll returns `Send 2` and advances `last_send` to 20. -/
theorem sender_timer_poll_send_witness :
    ((0:Nat) < 10 ∧ (25:Nat) < 100 ∧ (25:Nat) < 200 ∧ (0:Nat) + 10 < 25) ∧
    (1 ≤ (25 - 0) / 10 ∧
      SenderTimer.poll
        { interval := 10, sleep_after := 100, exit_after := 200, last_send := 0 }
        25 =
        ({ interval := 10, sleep_after := 100, exit_after := 200,
           last_send := 0 + 10 * ((25 - 0) / 10) }, .Send (min ((25 - 0) / 10) MAX_BURST))) :=
  ⟨by decide,
    sender_timer_poll_send.1
      { interval := 10, sleep_after := 100, exit_after := 200, last_send := 0 }
      25 (by decide) (by decide) (by decide) (by decide)⟩

/-! ## Bus registry (src/engine/bus_flume.rs)

The `DashMap<ADDRESS, Sender<MESSAGE>>` is modelled as an association
list from addresses to opaque sender tokens (`Nat`); `insert` replaces any
entry under the same key, `remove` deletes it. -/

inductive BusAddress where
  | SenderSocket
  | ReceiverSocket
  | FrameEncoder (chunk_id : Nat) (peer : Nat)
  | FrameDecoder (chunk_id : Nat)
  deriving DecidableEq, Repr

abbrev BusState : Type := List (BusAddress × Nat)

/-- Association lookup keyed by `BusAddress` (the model of `DashMap::get` /
`HashMap::get`). -/
def blook {α : Type} : List (BusAddress × α) → BusAddress → Option α
  | [], _ => none
  | (k, v) :: t, a => if k = a then some v else blook t a

/-- `DashMap::insert` / `HashMap::insert`: replace any entry under the key,
else append. -/
def binsert {α : Type} (st : List (BusAddress × α)) (a : BusAddress) (tok : α) :
    List (BusAddress × α) :=
  if (blook st a).isSome then
    st.map (fun kv => (kv.1, if kv.1 = a then tok else kv.2))
  else
    st ++ [(a, tok)]

/-- `DashMap::remove`: delete the entry under the key. -/
def bremove {α : Type} (st : List (BusAddress × α)) (a : BusAddress) :
    List (BusAddress × α) :=
  st.filter (fun kv => !(kv.1 == a))

structure BusInterface where
  address : BusAddress
  token : Nat
  deriving DecidableEq, Repr

/-- `Bus::register` (src/engine/bus_flume.rs:43-53): unconditionally
`peers.insert(id, tx)` — an existing entry is silently replaced — and hand
back an interface owning the address. -/
def busRegister (st : BusState) (a : BusAddress) (tok : Nat) :
    BusState × BusInterface :=
  (binsert st a tok, ⟨a, tok⟩)

/-- `impl Drop for BusInterface` (src/engine/bus_flume.rs:111-119): calls
`Bus::unregister(self.address)`, which removes whatever entry currently
sits under the address — the interface's own token is not consulted. -/
def busDropInterface (st : BusState) (iface : BusInterface) : BusState :=
  bremove st iface.address

/-- `Bus::send` (src/engine/bus_flume.rs:56-63) succeeds exactly when the
address has a registered sender. -/
def busSendOk (st : BusState) (a : BusAddress) : Bool :=
  (blook st a).isSome

theorem blook_map_set {α : Type} (st : List (BusAddress × α)) (a b : BusAddress)
    (tok : α) :
    blook (st.map (fun kv => (kv.1, if kv.1 = a then tok else kv.2))) b
      = if a = b then (blook st b).map (fun _ => tok) else blook st b := by
  induction st with
  | nil => simp [blook]
  | cons kv t ih =>
    obtain ⟨k, v⟩ := kv
    by_cases hk : k = b
    · subst hk
      by_cases hak : k = a
      · subst hak; simp [blook, ih]
      · have h2 : ¬(a = k) := fun h => hak h.symm
        simp [blook, hak, h2, ih]
    · by_cases hak : k = a
      · have hab : ¬(a = b) := fun h => hk (hak.trans h)
        simp [blook, hk, hak, hab, ih]
      · simp [blook, hk, hak, ih]

theorem blook_append {α : Type} (st st' : List (BusAddress × α)) (a : BusAddress) :
    blook (st ++ st') a
      = if (blook st a).isSome then blook st a else blook st' a := by
  induction st with
  | nil => simp [blook]
  | cons kv t ih =>
    obtain ⟨k, v⟩ := kv
    by_cases hk : k = a <;> simp [blook, hk, ih]

theorem blook_binsert {α : Type} (st : List (BusAddress × α)) (a : BusAddress)
    (tok : α) :
    blook (binsert st a tok) a = some tok := by
  unfold binsert
  by_cases hs : (blook st a).isSome
  · obtain ⟨v, hv⟩ := Option.isSome_iff_exists.mp hs
    rw [if_pos hs, blook_map_set, if_pos rfl, hv, Option.map_some']
  · rw [if_neg hs, blook_append, if_neg hs]
    simp [blook]

theorem blook_binsert_ne {α : Type} (st : List (BusAddress × α)) (a b : BusAddress)
    (tok : α) (hab : a ≠ b) :
    blook (binsert st a tok) b = blook st b := by
  unfold binsert
  by_cases hs : (blook st a).isSome
  · rw [if_pos hs, blook_map_set, if_neg hab]
  · rw [if_neg hs, blook_append]
    by_cases hb : (blook st b).isSome
    · rw [if_pos hb]
    · rw [if_neg hb, Option.not_isSome_iff_eq_none.mp hb]
      simp [blook, hab]

theorem blook_bremove (st : BusState) (a : BusAddress) :
    blook (bremove st a) a = none := by
  induction st with
  | nil => rfl
  | cons kv t ih =>
    obtain ⟨k, v⟩ := kv
    unfold bremove at ih ⊢
    by_cases hk : k = a <;> simp [blook, List.filter_cons, hk, ih]

/-- **C10.** `Bus::register` on an already-registered address silently
replaces the existing sender entry (it does not error); dropping any
`BusInterface` removes whatever sender is currently registered under its
address; hence dropping a stale interface whose address was re-registered by
a newer interface unregisters the newer sender, after which `send` to that
address fails even though the newer interface was never dropped. -/
theorem bus_register_replace_drop_unregisters
    (st : BusState) (a : BusAddress) (t1 t2 : Nat) :
    (busRegister st a t1).2 = ⟨a, t1⟩ ∧
    (blook (busRegister (busRegister st a t1).1 a t2).1 a = some t2) ∧
    (blook (busDropInterface (busRegister (busRegister st a t1).1 a t2).1
        (busRegister st a t1).2) a = none) ∧
    busSendOk (busDropInterface (busRegister (busRegister st a t1).1 a t2).1
        (busRegister st a t1).2) a = false := by
  refine ⟨rfl, blook_binsert _ a t2, ?_, ?_⟩
  · exact blook_bremove _ a
  · simp [busSendOk, busDropInterface, busRegister, blook_bremove]

/-! ## Per-chunk decoder actor (src/engine/decoding.rs)

The `FrameReceiver` trait (src/protocol/coding/mod.rs) is a parameter: an
arbitrary decoder state type with `try_init`, a state-passing `update`
(Rust mutates in place and returns the `Option`), and `expected_frame_id`.
The actor's bus receives are modelled by the finite list of data frames it
will be handed before its channel closes; a `recv` on the exhausted list is
the channel-closed `None`, on which the actor returns `none`. -/

structure ParsedDataFrameM where
  frame_offset : Nat
  transmission_info : List Nat
  data : List Nat
  deriving DecidableEq, Repr

structure FrameReceiverModel (S : Type) where
  tryInit : List Nat → Option S
  update : S → Nat → List Nat → S × Option (List Nat)
  expected_frame_id : S → Nat

abbrev SentReport : Type := BusAddress × Nat × ReceivingChunkReport

/-- The steady-state `loop` of `ChunkDecoder::run` (src/engine/decoding.rs:54-80):
on `Some(data)` send `Finished(expected_frame_id)` and return the plaintext,
on `None` send `WantNext(expected_frame_id)` and continue.  (`update` mutates
the decoder in the source; here it returns the new state, of which
`expected_frame_id` is then read.) -/
def runLoop {S : Type} (M : FrameReceiverModel S) (chunk_id : Nat) :
    S → List ParsedDataFrameM → List SentReport →
    List SentReport × Option (List Nat)
  | _, [], msgs => (msgs, none)
  | s, f :: rest, msgs =>
    match M.update s f.frame_offset f.data with
    | (s', some data) =>
        (msgs ++ [(BusAddress.ReceiverSocket,
          (chunk_id, ReceivingChunkReport.Finished (M.expected_frame_id s')))],
         some data)
    | (s', none) =>
        runLoop M chunk_id s' rest
          (msgs ++ [(BusAddress.ReceiverSocket,
            (chunk_id, ReceivingChunkReport.WantNext (M.expected_frame_id s')))])

/-- `ChunkDecoder::run` (src/engine/decoding.rs:35-81): send `WantNext(0)`,
receive the first frame, `try_init` from its transmission info, and — if the
very first `update` already completes the chunk — return `Some(data)`
immediately (no `Finished` report); otherwise enter the steady-state loop. -/
def ChunkDecoder.run {S : Type} (M : FrameReceiverModel S) (chunk_id : Nat)
    (frames : List ParsedDataFrameM) :
    List SentReport × Option (List Nat) :=
  let msgs0 : List SentReport :=
    [(BusAddress.ReceiverSocket, (chunk_id, ReceivingChunkReport.WantNext 0))]
  match frames with
  | [] => (msgs0, none)
  | f :: rest =>
    match M.tryInit f.transmission_info with
    | none => (msgs0, none)
    | some s =>
      match M.update s f.frame_offset f.data with
      | (_, some data) => (msgs0, some data)
      | (s', none) => runLoop M chunk_id s' rest msgs0

theorem runLoop_cons_some {S : Type} (M : FrameReceiverModel S) (cid : Nat)
    (s s' : S) (f : ParsedDataFrameM) (rest : List ParsedDataFrameM)
    (msgs : List SentReport) (data : List Nat)
    (h : M.update s f.frame_offset f.data = (s', some data)) :
    runLoop M cid s (f :: rest) msgs =
      (msgs ++ [(BusAddress.ReceiverSocket,
        (cid, ReceivingChunkReport.Finished (M.expected_frame_id s')))],
       some data) := by
  unfold runLoop
  rw [h]

theorem runLoop_cons_none {S : Type} (M : FrameReceiverModel S) (cid : Nat)
    (s s' : S) (f : ParsedDataFrameM) (rest : List ParsedDataFrameM)
    (msgs : List SentReport)
    (h : M.update s f.frame_offset f.data = (s', none)) :
    runLoop M cid s (f :: rest) msgs =
      runLoop M cid s' rest
        (msgs ++ [(BusAddress.ReceiverSocket,
          (cid, ReceivingChunkReport.WantNext (M.expected_frame_id s')))]) := by
  have h0 : runLoop M cid s (f :: rest) msgs =
      match M.update s f.frame_offset f.data with
      | (s', some data) =>
          (msgs ++ [(BusAddress.ReceiverSocket,
            (cid, ReceivingChunkReport.Finished (M.expected_frame_id s')))],
           some data)
      | (s', none) =>
          runLoop M cid s' rest
            (msgs ++ [(BusAddress.ReceiverSocket,
              (cid, ReceivingChunkReport.WantNext (M.expected_frame_id s')))]) := rfl
  rw [h0, h]

theorem run_cons_eq {S : Type} (M : FrameReceiverModel S) (cid : Nat)
    (f : ParsedDataFrameM) (rest : List ParsedDataFrameM) :
    ChunkDecoder.run M cid (f :: rest) =
      match M.tryInit f.transmission_info with
      | none =>
        ([(BusAddress.ReceiverSocket, (cid, ReceivingChunkReport.WantNext 0))], none)
      | some s =>
        match M.update s f.frame_offset f.data with
        | (_, some data) =>
          ([(BusAddress.ReceiverSocket, (cid, ReceivingChunkReport.WantNext 0))],
            some data)
        | (s', none) =>
          runLoop M cid s' rest
            [(BusAddress.ReceiverSocket, (cid, ReceivingChunkReport.WantNext 0))] :=
  rfl

theorem run_cons_first_none {S : Type} (M : FrameReceiverModel S) (cid : Nat)
    (f : ParsedDataFrameM) (rest : List ParsedDataFrameM) (s s' : S)
    (hinit : M.tryInit f.transmission_info = some s)
    (hupd : M.update s f.frame_offset f.data = (s', none)) :
    ChunkDecoder.run M cid (f :: rest) =
      runLoop M cid s' rest
        [(BusAddress.ReceiverSocket, (cid, ReceivingChunkReport.WantNext 0))] := by
  rw [run_cons_eq, hinit]
  show (match M.update s f.frame_offset f.data with
    | (_, some data) =>
      ([(BusAddress.ReceiverSocket, (cid, ReceivingChunkReport.WantNext 0))],
        some data)
    | (s', none) =>
      runLoop M cid s' rest
        [(BusAddress.ReceiverSocket, (cid, ReceivingChunkReport.WantNext 0))]) = _
  rw [hupd]

theorem run_cons_first_some {S : Type} (M : FrameReceiverModel S) (cid : Nat)
    (f : ParsedDataFrameM) (rest : List ParsedDataFrameM) (s s' : S)
    (data : List Nat)
    (hinit : M.tryInit f.transmission_info = some s)
    (hupd : M.update s f.frame_offset f.data = (s', some data)) :
    ChunkDecoder.run M cid (f :: rest) =
      ([(BusAddress.ReceiverSocket, (cid, ReceivingChunkReport.WantNext 0))],
        some data) := by
  rw [run_cons_eq, hinit]
  show (match M.update s f.frame_offset f.data with
    | (_, some data) =>
      ([(BusAddress.ReceiverSocket, (cid, ReceivingChunkReport.WantNext 0))],
        some data)
    | (s', none) =>
      runLoop M cid s' rest
        [(BusAddress.ReceiverSocket, (cid, ReceivingChunkReport.WantNext 0))]) = _
  rw [hupd]

/-- A degenerate decoder whose very first `update` call completes the chunk,
exhibiting the early-return path of `ChunkDecoder::run`. -/
def oneShotDecoder : FrameReceiverModel Unit where
  tryInit _ := some ()
  update _ _ _ := ((), some [42])
  expected_frame_id _ := 7

/-- **C3 counterexample.** With a decoder whose first `update` returns
`Some(plaintext)`, the actor returns `Some(plaintext)` but its message trace
contains no `Finished` report at all: the early-return path at
src/engine/decoding.rs:48-50 skips the `Finished(expected_frame_id)` send that
the claim requires for every completion. -/
theorem decoder_first_frame_completion_no_finished :
    (ChunkDecoder.run oneShotDecoder 1 [⟨0, [], []⟩]).2 = some [42] ∧
    ((ChunkDecoder.run oneShotDecoder 1 [⟨0, [], []⟩]).1.filter
      (fun m => match m.2.2 with
        | ReceivingChunkReport.Finished _ => true
        | ReceivingChunkReport.WantNext _ => false)) = [] := by
  decide

theorem runLoop_msgs_prefix {S : Type} (M : FrameReceiverModel S) (cid : Nat)
    (frames : List ParsedDataFrameM) :
    ∀ (s : S) (msgs : List SentReport),
      ∃ suffix, (runLoop M cid s frames msgs).1 = msgs ++ suffix := by
  induction frames with
  | nil => intro s msgs; exact ⟨[], (List.append_nil msgs).symm⟩
  | cons f rest ih =>
    intro s msgs
    rcases hu : M.update s f.frame_offset f.data with ⟨s', r⟩
    cases r with
    | some data => rw [runLoop_cons_some M cid s s' f rest msgs data hu]; exact ⟨_, rfl⟩
    | none =>
      rw [runLoop_cons_none M cid s s' f rest msgs hu]
      obtain ⟨suf, hsuf⟩ := ih s'
        (msgs ++ [(BusAddress.ReceiverSocket,
          (cid, ReceivingChunkReport.WantNext (M.expected_frame_id s')))])
      exact ⟨_, by rw [hsuf, List.append_assoc]⟩

theorem runLoop_some_last_finished {S : Type} (M : FrameReceiverModel S) (cid : Nat)
    (frames : List ParsedDataFrameM) :
    ∀ (s : S) (msgs : List SentReport) (out : List SentReport) (d : List Nat),
      runLoop M cid s frames msgs = (out, some d) →
      ∃ pre s_pre f s', f ∈ frames ∧
        M.update s_pre f.frame_offset f.data = (s', some d) ∧
        out = pre ++ [(BusAddress.ReceiverSocket,
          (cid, ReceivingChunkReport.Finished (M.expected_frame_id s')))] := by
  induction frames with
  | nil => intro s msgs out d h; cases h
  | cons f rest ih =>
    intro s msgs out d h
    rcases hu : M.update s f.frame_offset f.data with ⟨s1, r⟩
    cases r with
    | some data =>
      rw [runLoop_cons_some M cid s s1 f rest msgs data hu] at h
      have hd : data = d := Option.some.inj (congrArg Prod.snd h)
      subst hd
      exact ⟨msgs, s, f, s1, List.mem_cons_self _ _, hu,
        (congrArg Prod.fst h).symm⟩
    | none =>
      rw [runLoop_cons_none M cid s s1 f rest msgs hu] at h
      obtain ⟨pre, s_pre, f', s', hmem, hupd, hout⟩ := ih s1 _ out d h
      exact ⟨pre, s_pre, f', s', List.mem_cons_of_mem _ hmem, hupd, hout⟩

/-- **C3 (amended).** Whenever `decoder.update` returns `Some(plaintext)`
*inside the steady-state loop* — i.e. on the second or a later received
frame — the actor sends `Finished(expected_frame_id)` to the
`ReceiverSocket` bus address as its final message and returns
`Some(plaintext)`: the offset carried by the `Finished` report is exactly
`expected_frame_id` of the decoder state `s'` produced by the completing
`update` call (the call on a frame `f` of the steady-state stream that
returned `(s', Some(plaintext))`).  When the very first received frame
completes the chunk, the actor instead returns `Some(plaintext)` without
sending any `Finished` report (cf. the counterexample). -/
theorem decoder_loop_completion_sends_finished {S : Type}
    (M : FrameReceiverModel S) (cid : Nat) (f0 : ParsedDataFrameM)
    (rest : List ParsedDataFrameM) (s0 : S) (d : List Nat)
    (hinit : M.tryInit f0.transmission_info = some s0)
    (hfirst : (M.update s0 f0.frame_offset f0.data).2 = none)
    (hres : (ChunkDecoder.run M cid (f0 :: rest)).2 = some d) :
    ∃ pre s_pre f s', f ∈ rest ∧
      M.update s_pre f.frame_offset f.data = (s', some d) ∧
      (ChunkDecoder.run M cid (f0 :: rest)).1 = pre ++
        [(BusAddress.ReceiverSocket,
          (cid, ReceivingChunkReport.Finished (M.expected_frame_id s')))] := by
  rcases hu : M.update s0 f0.frame_offset f0.data with ⟨s1, r⟩
  have hr : r = none := by rw [hu] at hfirst; exact hfirst
  subst hr
  rw [run_cons_first_none M cid f0 rest s0 s1 hinit hu] at hres ⊢
  exact runLoop_some_last_finished M cid rest s1 _ _ d
    (Prod.ext_iff.mpr ⟨rfl, hres⟩)

/-- A decoder that completes on its second `update` call, used to witness
`decoder_loop_completion_sends_finished`. -/
def twoShotDecoder : FrameReceiverModel Nat where
  tryInit _ := some 0
  update s _ _ := (s + 1, if s = 1 then some [9] else none)
  expected_frame_id s := s

/-- Witness for `decoder_loop_completion_sends_finished` on `twoShotDecoder`:
the completing update maps state 1 to state 2 and the final bus message is
`Finished (expected_frame_id 2) = Finished 2`. -/
theorem decoder_loop_completion_sends_finished_witness :
    (twoShotDecoder.tryInit ([] : List Nat) = some 0 ∧
     (twoShotDecoder.update 0 0 []).2 = none ∧
     (ChunkDecoder.run twoShotDecoder 5 [⟨0, [], []⟩, ⟨1, [], []⟩]).2 = some [9]) ∧
    (∃ pre s_pre f s', f ∈ [(⟨1, [], []⟩ : ParsedDataFrameM)] ∧
      twoShotDecoder.update s_pre f.frame_offset f.data = (s', some [9]) ∧
      (ChunkDecoder.run twoShotDecoder 5 [⟨0, [], []⟩, ⟨1, [], []⟩]).1
        = pre ++ [(BusAddress.ReceiverSocket,
            (5, ReceivingChunkReport.Finished
              (twoShotDecoder.expected_frame_id s')))]) :=
  ⟨⟨rfl, rfl, rfl⟩,
    decoder_loop_completion_sends_finished twoShotDecoder 5 ⟨0, [], []⟩
      [⟨1, [], []⟩] 0 [9] rfl rfl rfl⟩

/-! ## RaptorQ receiver (src/protocol/coding/raptorq_code.rs)

The raptorq crate is an external collaborator; its
`ObjectTransmissionInformation::deserialize`, `Decoder::new` and
`Decoder::decode` are abstracted as total functions (their Rust signatures
are total: no `Result`/`Option` on the construction path). -/

structure RaptorqExt (OTI D : Type) where
  deserialize : List Nat → OTI
  decoderNew : OTI → D
  decode : D → List Nat → D × Option (List Nat)

structure RaptorqReceiver (D : Type) where
  decoder : D
  expected_frame_id : Nat

/-- `RaptorqReceiver::try_init` (src/protocol/coding/raptorq_code.rs:68-76):
deserializes the transmission info, builds a fresh decoder, and wraps the
receiver in `Some` unconditionally. -/
def RaptorqReceiver.try_init {OTI D : Type} (ext : RaptorqExt OTI D)
    (frame : List Nat) : Option (RaptorqReceiver D) :=
  some { decoder := ext.decoderNew (ext.deserialize frame), expected_frame_id := 0 }

/-- `RaptorqReceiver::update` (src/protocol/coding/raptorq_code.rs:77-80). -/
def RaptorqReceiver.updateM {OTI D : Type} (ext : RaptorqExt OTI D)
    (r : RaptorqReceiver D) (frame_id : Nat) (frame : List Nat) :
    RaptorqReceiver D × Option (List Nat) :=
  let step := ext.decode r.decoder frame
  ({ decoder := step.1, expected_frame_id := max r.expected_frame_id (frame_id + 1) },
    step.2)

/-- The `FrameReceiver` instance of the RaptorQ receiver, as consumed by the
decoder actor. -/
def raptorqModel {OTI D : Type} (ext : RaptorqExt OTI D) :
    FrameReceiverModel (RaptorqReceiver D) where
  tryInit := RaptorqReceiver.try_init ext
  update := RaptorqReceiver.updateM ext
  expected_frame_id r := r.expected_frame_id

/-- The continuation of `ChunkDecoder::run` after a successful `try_init`:
first `update`, early return on completion, otherwise the steady-state loop. -/
def runPostInit {S : Type} (M : FrameReceiverModel S) (cid : Nat) (s : S)
    (f : ParsedDataFrameM) (rest : List ParsedDataFrameM) :
    List SentReport × Option (List Nat) :=
  match M.update s f.frame_offset f.data with
  | (_, some data) =>
    ([(BusAddress.ReceiverSocket, (cid, ReceivingChunkReport.WantNext 0))],
      some data)
  | (s', none) =>
    runLoop M cid s' rest
      [(BusAddress.ReceiverSocket, (cid, ReceivingChunkReport.WantNext 0))]

/-- **C9.** `RaptorqReceiver::try_init` returns `Some` for every 12-byte
transmission-info input — it never returns `None` — so the decoder actor's
failure path that terminates with `none` because the transmission info is
malformed (src/engine/decoding.rs:46) is unreachable when the RaptorQ codec
is used: on any nonempty frame sequence the actor's run is exactly the
post-initialization continuation, never the `try_init`-failure branch. -/
theorem raptorq_try_init_never_none {OTI D : Type} (ext : RaptorqExt OTI D) :
    (∀ frame : List Nat, (RaptorqReceiver.try_init ext frame).isSome = true) ∧
    (∀ (cid : Nat) (f : ParsedDataFrameM) (rest : List ParsedDataFrameM),
      ChunkDecoder.run (raptorqModel ext) cid (f :: rest) =
        runPostInit (raptorqModel ext) cid
          { decoder := ext.decoderNew (ext.deserialize f.transmission_info),
            expected_frame_id := 0 }
          f rest) := by
  refine ⟨fun _ => rfl, fun cid f rest => ?_⟩
  rcases hu : (raptorqModel ext).update
      { decoder := ext.decoderNew (ext.deserialize f.transmission_info),
        expected_frame_id := 0 } f.frame_offset f.data with ⟨s', r⟩
  have hinit : (raptorqModel ext).tryInit f.transmission_info =
      some { decoder := ext.decoderNew (ext.deserialize f.transmission_info),
             expected_frame_id := 0 } := rfl
  cases r with
  | some data =>
    rw [run_cons_first_some (raptorqModel ext) cid f rest _ s' data hinit hu]
    unfold runPostInit
    rw [hu]
  | none =>
    rw [run_cons_first_none (raptorqModel ext) cid f rest _ s' hinit hu]
    unfold runPostInit
    rw [hu]

/-! ## Parsed wire entities (src/protocol/wire/frames.rs, packets.rs)

Parsed frames and packets as plain data.  `SocketAddr` peers are opaque
tokens (`Nat`). -/

inductive ParsedFrameVariant where
  | Data (chunk_id frame_offset : Nat) (transmission_info : List Nat)
      (data : List Nat)
  | GetChunk (chunk_id next_receive_offset receive_window_frames : Nat)
  | RateLimit (desired_max_kbps : Nat)
  deriving DecidableEq, Repr

inductive ParsedPacketVariant where
  | DataPacket
  | TicketPacket (pub_key : List Nat) (timestamp_ms : Nat)
  deriving DecidableEq, Repr

structure ParsedPacket where
  pkt : List Nat
  specific_packet_header : ParsedPacketVariant
  frames : List ParsedFrameVariant
  deriving DecidableEq, Repr

/-! ## Sending-order demultiplexing (src/engine/sending.rs) -/

/-- A `SendingOrder` (src/engine/mod.rs:62-70).  The `time_stamp` field
(`Instant::now()`, wall clock) is not modelled.  The pacing interval from a
`RateLimit` frame, `Duration::from_millis(8).mul_f32((MTU+20) as f32)
.div_f64(rate_kbps as f64)`, is modelled as the exact rational number of
milliseconds `8·(MTU+20)/rate_kbps` (binary floating-point rounding of the
external `Duration` arithmetic is abstracted away). -/
structure SendingOrder where
  chunk_id : Nat
  sending_interval : Option ℚ
  offset_next : Nat
  offset_no_more_than : Nat
  close_now : Bool
  deriving DecidableEq, Repr

def rateToInterval (rate_kbps : Nat) : ℚ := (8 * (MTU + 20) : ℚ) / rate_kbps

/-- The frame fold inside `build_sending_order` (src/engine/sending.rs:32-58):
a mutable `sending_interval` threads left-to-right; each `GetChunk` inserts an
order carrying the interval *as of that frame*; `offset_no_more_than` is the
`u32` sum (wrapping, hence `% 2^32`); `close_now ⇔ receive_window == 0`. -/
def bsoFold (peer : Nat) :
    List ParsedFrameVariant → Option ℚ → List (BusAddress × SendingOrder) →
    List (BusAddress × SendingOrder)
  | [], _, orders => orders
  | .GetChunk c n w :: rest, sending_interval, orders =>
      bsoFold peer rest sending_interval
        (binsert orders (BusAddress.FrameEncoder c peer)
          { chunk_id := c, sending_interval := sending_interval,
            offset_next := n, offset_no_more_than := (n + w) % 2 ^ 32,
            close_now := w == 0 })
  | .RateLimit r :: rest, _, orders =>
      bsoFold peer rest (some (rateToInterval r)) orders
  | .Data _ _ _ _ :: rest, sending_interval, orders =>
      bsoFold peer rest sending_interval orders

/-- `build_sending_order` (src/engine/sending.rs:23-61): `None` unless the
packet is a Ticket packet; otherwise fold the frames into a per-chunk order
map keyed by `FrameEncoder(chunk_id, peer)`. -/
def build_sending_order (p : ParsedPacket) (peer : Nat) :
    Option (List (BusAddress × SendingOrder)) :=
  match p.specific_packet_header with
  | .TicketPacket _ _ => some (bsoFold peer p.frames none [])
  | .DataPacket => none

/-- The value of the threaded `sending_interval` after a frame list. -/
def foldInterval (i : Option ℚ) : List ParsedFrameVariant → Option ℚ
  | [] => i
  | .RateLimit r :: rest => foldInterval (some (rateToInterval r)) rest
  | .GetChunk _ _ _ :: rest => foldInterval i rest
  | .Data _ _ _ _ :: rest => foldInterval i rest

/-- **C5 counterexample.** A parsed Ticket packet whose `RateLimit` frame
follows its `GetChunk` frame: the derived order carries
`sending_interval = none`, not the interval from the `RateLimit` frame — the
claim's "regardless of where the RateLimit frame sits" fails. -/
theorem build_sending_order_ratelimit_position_counterexample :
    build_sending_order
        { pkt := [], specific_packet_header := .TicketPacket [] 0,
          frames := [.GetChunk 1 5 10, .RateLimit 1000] } 7
      = some [(BusAddress.FrameEncoder 1 7,
          { chunk_id := 1, sending_interval := none, offset_next := 5,
            offset_no_more_than := 15, close_now := false })] ∧
    (none : Option ℚ) ≠ some (rateToInterval 1000) := by
  constructor
  · rfl
  · simp

theorem bsoFold_append (peer : Nat) (l1 l2 : List ParsedFrameVariant) :
    ∀ (i : Option ℚ) (orders : List (BusAddress × SendingOrder)),
      bsoFold peer (l1 ++ l2) i orders
        = bsoFold peer l2 (foldInterval i l1) (bsoFold peer l1 i orders) := by
  induction l1 with
  | nil => intro i orders; rfl
  | cons f rest ih =>
    intro i orders
    cases f <;> simp only [List.cons_append, bsoFold, foldInterval] <;> exact ih _ _

theorem bsoFold_no_getchunk_preserves (peer c : Nat)
    (fs : List ParsedFrameVariant)
    (hno : ∀ n' w', ParsedFrameVariant.GetChunk c n' w' ∉ fs) :
    ∀ (i : Option ℚ) (orders : List (BusAddress × SendingOrder)),
      blook (bsoFold peer fs i orders) (BusAddress.FrameEncoder c peer)
        = blook orders (BusAddress.FrameEncoder c peer) := by
  induction fs with
  | nil => intro i orders; rfl
  | cons f rest ih =>
    have hno' : ∀ n' w', ParsedFrameVariant.GetChunk c n' w' ∉ rest :=
      fun n' w' hmem => hno n' w' (List.mem_cons_of_mem f hmem)
    intro i orders
    cases f with
    | GetChunk c' n' w' =>
      have hc : c' ≠ c := by
        intro h
        exact hno n' w' (by rw [h]; exact List.mem_cons_self _ _)
      rw [bsoFold, ih hno', blook_binsert_ne]
      intro h
      cases h
      exact hc rfl
    | RateLimit r => rw [bsoFold, ih hno']
    | Data a b c' d => rw [bsoFold, ih hno']

/-- **C5 (amended).** For every parsed Ticket packet, each
`GetChunk{chunk_id, next_receive_offset, receive_window_frames}` frame whose
chunk id recurs in no later `GetChunk` frame yields the order stored at
`FrameEncoder(chunk_id, peer)`, with `offset_next = next_receive_offset`,
`offset_no_more_than = (next_receive_offset + receive_window_frames) mod 2^32`,
`close_now ⇔ receive_window_frames = 0`, and
`sending_interval = 8 ms · (MTU + 20) / rate_kbps` taken from the **last
`RateLimit` frame preceding that `GetChunk` frame** (`none` if no `RateLimit`
precedes it) — not, as claimed, from a `RateLimit` frame anywhere in the
packet. -/
theorem build_sending_order_spec (pk : List Nat) (ts : Nat) (pkt : List Nat)
    (peer : Nat) (fs1 fs2 : List ParsedFrameVariant) (c n w : Nat)
    (hno : ∀ n' w', ParsedFrameVariant.GetChunk c n' w' ∉ fs2) :
    ∃ m, build_sending_order
        { pkt := pkt, specific_packet_header := .TicketPacket pk ts,
          frames := fs1 ++ .GetChunk c n w :: fs2 } peer = some m ∧
      blook m (BusAddress.FrameEncoder c peer)
        = some { chunk_id := c, sending_interval := foldInterval none fs1,
                 offset_next := n, offset_no_more_than := (n + w) % 2 ^ 32,
                 close_now := w == 0 } := by
  refine ⟨_, rfl, ?_⟩
  show blook (bsoFold peer (fs1 ++ .GetChunk c n w :: fs2) none [])
      (BusAddress.FrameEncoder c peer) = _
  rw [bsoFold_append, bsoFold, bsoFold_no_getchunk_preserves peer c fs2 hno,
    blook_binsert]

/-- Witness for `build_sending_order_spec`: a two-chunk ticket with the rate
limit in front. -/
theorem build_sending_order_spec_witness :
    (∀ n' w', ParsedFrameVariant.GetChunk 3 n' w'
        ∉ ([ParsedFrameVariant.GetChunk 9 4 0] : List ParsedFrameVariant)) ∧
    (∃ m, build_sending_order
        { pkt := [], specific_packet_header := .TicketPacket [] 5,
          frames := [.RateLimit 1000] ++ .GetChunk 3 100 200
            :: [ParsedFrameVariant.GetChunk 9 4 0] } 7 = some m ∧
      blook m (BusAddress.FrameEncoder 3 7)
        = some { chunk_id := 3,
                 sending_interval := foldInterval none [.RateLimit 1000],
                 offset_next := 100, offset_no_more_than := (100 + 200) % 2 ^ 32,
                 close_now := (200 == 0) }) :=
  ⟨fun n' w' h => by simp at h,
    build_sending_order_spec [] 5 [] 7 [.RateLimit 1000]
      [ParsedFrameVariant.GetChunk 9 4 0] 3 100 200
      (fun n' w' h => by simp at h)⟩

/-! ## Reporter generation (src/engine/receiving.rs, `Reporter::generate`) -/

/-- `HashMap::insert` with `u32` keys: replace any entry under the key,
else append. -/
def ainsert {α : Type} (m : List (Nat × α)) (k : Nat) (v : α) : List (Nat × α) :=
  if (alook m k).isSome then
    m.map (fun kv => (kv.1, if kv.1 = k then v else kv.2))
  else
    m ++ [(k, v)]

theorem alook_ainsert {α : Type} (m : List (Nat × α)) (k : Nat) (v : α) :
    alook (ainsert m k v) k = some v := by
  unfold ainsert
  by_cases hs : (alook m k).isSome
  · obtain ⟨w, hw⟩ := Option.isSome_iff_exists.mp hs
    rw [if_pos hs]
    have hmap := alook_map_modify m k k (fun _ => v)
    simp only [] at hmap
    rw [hmap]
    simp [hw]
  · rw [if_neg hs, alook_append, if_neg hs]
    simp [alook]

theorem alook_ainsert_ne {α : Type} (m : List (Nat × α)) (k c : Nat) (v : α)
    (hkc : k ≠ c) :
    alook (ainsert m k v) c = alook m c := by
  unfold ainsert
  by_cases hs : (alook m k).isSome
  · rw [if_pos hs]
    have hmap := alook_map_modify m k c (fun _ => v)
    simp only [] at hmap
    rw [hmap, if_neg hkc]
  · rw [if_neg hs, alook_append]
    by_cases hc : (alook m c).isSome
    · rw [if_pos hc]
    · rw [if_neg hc, Option.not_isSome_iff_eq_none.mp hc]
      simp [alook, hkc]

/-- The built Ticket packet, reduced to the fields `Reporter::generate`
populates: `set_rate_limit` and the `chunk_id → GetChunk` map (`pubkey` and
`timestamp_ms` are environment inputs). -/
structure TicketPacketM where
  rate_limit : Option Nat
  get_chunk : List (Nat × (Nat × Nat))
  deriving DecidableEq, Repr

/-- `TicketPacket::set_get_chunk` (src/protocol/wire/packets.rs:177-192):
`HashMap::insert`, so a later call with the same chunk id shadows. -/
def setGetChunk (t : TicketPacketM)
    (chunk_id next_received_offset receive_window : Nat) : TicketPacketM :=
  { t with
    get_chunk := ainsert t.get_chunk chunk_id (next_received_offset, receive_window) }

/-- The predicate of the `extract_if` in `Reporter::generate`
(src/engine/receiving.rs:40): `*v >= ReceivingChunkReport::Finished(0)`
under the manual `Ord`. -/
def reportGe (v : ReceivingChunkReport) : Bool :=
  !(reportCmp v (ReceivingChunkReport.Finished 0) == Ordering.lt)

/-- A report is a `Finished` variant. -/
def isFinishedB : ReceivingChunkReport → Bool
  | .Finished _ => true
  | .WantNext _ => false

theorem reportGe_eq_isFinishedB (v : ReceivingChunkReport) :
    reportGe v = isFinishedB v := by
  cases v with
  | WantNext n => rfl
  | Finished n =>
    simp only [reportGe, isFinishedB, reportCmp]
    cases hcmp : compare n 0 with
    | lt =>
      have := Nat.compare_eq_lt.mp hcmp
      omega
    | eq => rfl
    | gt => rfl

/-- The per-entry fold body of `Reporter::generate`
(src/engine/receiving.rs:48-55). -/
def genStep (t : TicketPacketM) (kv : Nat × ReceivingChunkReport) : TicketPacketM :=
  match kv.2 with
  | .WantNext n => setGetChunk t kv.1 n (max 8192 (n / 5))
  | .Finished n => setGetChunk t kv.1 n 0

/-- The `(next_receive_offset, receive_window_frames)` pair `genStep` stores
for a report. -/
def chunkRule : ReceivingChunkReport → Nat × Nat
  | .WantNext n => (n, max 8192 (n / 5))
  | .Finished n => (n, 0)

theorem genStep_eq (t : TicketPacketM) (kv : Nat × ReceivingChunkReport) :
    genStep t kv = { t with get_chunk := ainsert t.get_chunk kv.1 (chunkRule kv.2) } := by
  obtain ⟨c, e⟩ := kv
  cases e <;> rfl

structure Reporter where
  activate_data : List (Nat × ReceivingChunkReport)
  exiting_data : List (List (Nat × ReceivingChunkReport))
  deriving DecidableEq, Repr

/-- `Reporter::generate` (src/engine/receiving.rs:33-56): pop the oldest
generation when three are queued, extract the `Finished` entries of `active`
into a fresh front generation (`extract_if` keeps the rest), then fold
`active` chained with all exiting generations into a Ticket packet carrying
the rate limit.  (`HashMap`/`VecDeque` iteration is modelled on association
lists; `extract_if` is the filter partition.) -/
def Reporter.generate (rep : Reporter) (rate_kbps : Nat) :
    Reporter × TicketPacketM :=
  let exiting1 := if 3 ≤ rep.exiting_data.length
    then rep.exiting_data.dropLast else rep.exiting_data
  let promoted := rep.activate_data.filter (fun kv => reportGe kv.2)
  let active' := rep.activate_data.filter (fun kv => !(reportGe kv.2))
  let exiting' := promoted :: exiting1
  let ticket := (active' ++ exiting'.flatten).foldl genStep
    { rate_limit := some rate_kbps, get_chunk := [] }
  ({ activate_data := active', exiting_data := exiting' }, ticket)

theorem fold_genStep_preserves (l : List (Nat × ReceivingChunkReport)) :
    ∀ (t0 : TicketPacketM) (c : Nat), c ∉ l.map Prod.fst →
      alook ((l.foldl genStep t0).get_chunk) c = alook t0.get_chunk c := by
  induction l with
  | nil => intro t0 c _; rfl
  | cons kv rest ih =>
    intro t0 c hc
    rw [List.map_cons] at hc
    have hne : kv.1 ≠ c := fun h => hc (by rw [h]; exact List.mem_cons_self _ _)
    have hrest : c ∉ rest.map Prod.fst := fun h => hc (List.mem_cons_of_mem _ h)
    rw [List.foldl_cons, ih _ c hrest, genStep_eq]
    exact alook_ainsert_ne _ _ _ _ hne

theorem fold_genStep_lookup (l : List (Nat × ReceivingChunkReport)) :
    ∀ (t0 : TicketPacketM), (l.map Prod.fst).Nodup →
      ∀ kv ∈ l, alook ((l.foldl genStep t0).get_chunk) kv.1
        = some (chunkRule kv.2) := by
  induction l with
  | nil => intro t0 _ kv h; cases h
  | cons hd rest ih =>
    intro t0 hnd kv hmem
    rw [List.map_cons, List.nodup_cons] at hnd
    rcases List.mem_cons.mp hmem with rfl | hrest
    · rw [List.foldl_cons, fold_genStep_preserves rest _ kv.1 hnd.1, genStep_eq]
      exact alook_ainsert _ _ _
    · exact ih (genStep t0 hd) hnd.2 kv hrest

theorem fold_genStep_domain (l : List (Nat × ReceivingChunkReport))
    (t0 : TicketPacketM) (c : Nat)
    (h : (alook ((l.foldl genStep t0).get_chunk) c).isSome = true) :
    c ∈ l.map Prod.fst ∨ (alook t0.get_chunk c).isSome = true := by
  by_cases hc : c ∈ l.map Prod.fst
  · exact Or.inl hc
  · right
    rw [← fold_genStep_preserves l t0 c hc]
    exact h

theorem fold_genStep_rate (l : List (Nat × ReceivingChunkReport)) :
    ∀ t0 : TicketPacketM, (l.foldl genStep t0).rate_limit = t0.rate_limit := by
  induction l with
  | nil => intro t0; rfl
  | cons hd rest ih =>
    intro t0
    rw [List.foldl_cons, ih, genStep_eq]

theorem Reporter.generate_eq (rep : Reporter) (rate : Nat) :
    rep.generate rate =
      ({ activate_data := rep.activate_data.filter (fun kv => !(reportGe kv.2)),
         exiting_data := (rep.activate_data.filter (fun kv => reportGe kv.2)) ::
           (if 3 ≤ rep.exiting_data.length then rep.exiting_data.dropLast
            else rep.exiting_data) },
       ((rep.activate_data.filter (fun kv => !(reportGe kv.2)) ++
         ((rep.activate_data.filter (fun kv => reportGe kv.2)) ::
           (if 3 ≤ rep.exiting_data.length then rep.exiting_data.dropLast
            else rep.exiting_data)).flatten).foldl genStep
         { rate_limit := some rate, get_chunk := [] })) := rfl

/-- **C8.** `Reporter::generate` moves exactly the `Finished` entries of the
active map into a new front generation of the exiting queue (active
afterwards holds only `WantNext` entries), keeps the exiting queue at no
more than three generations, and — provided the chunk ids across the
resulting containers are distinct, as they are when each chunk is tracked in
one place — emits exactly one `GetChunk` per chunk in active and exiting
with `next_receive_offset = n` and `receive_window_frames = max(8192, n/5)`
for a `WantNext(n)` entry and `receive_window_frames = 0` for a
`Finished(n)` entry. -/
theorem reporter_generate_spec (rep : Reporter) (rate : Nat)
    (hlen : rep.exiting_data.length ≤ 3)
    (hnodup : ((rep.activate_data ++
        (if 3 ≤ rep.exiting_data.length then rep.exiting_data.dropLast
         else rep.exiting_data).flatten).map Prod.fst).Nodup) :
    (rep.generate rate).1.activate_data
      = rep.activate_data.filter (fun kv => !(isFinishedB kv.2)) ∧
    (rep.generate rate).1.exiting_data.head?
      = some (rep.activate_data.filter (fun kv => isFinishedB kv.2)) ∧
    (rep.generate rate).1.exiting_data.length ≤ 3 ∧
    (rep.generate rate).2.rate_limit = some rate ∧
    (∀ kv ∈ (rep.generate rate).1.activate_data
        ++ (rep.generate rate).1.exiting_data.flatten,
      alook (rep.generate rate).2.get_chunk kv.1 = some (chunkRule kv.2)) ∧
    (∀ c, (alook (rep.generate rate).2.get_chunk c).isSome = true →
      c ∈ ((rep.generate rate).1.activate_data
        ++ (rep.generate rate).1.exiting_data.flatten).map Prod.fst) := by
  have hfun : ∀ kv : Nat × ReceivingChunkReport,
      reportGe kv.2 = isFinishedB kv.2 := fun kv => reportGe_eq_isFinishedB kv.2
  have hperm := List.filter_append_perm
    (fun kv : Nat × ReceivingChunkReport => !(reportGe kv.2)) rep.activate_data
  simp only [Bool.not_not] at hperm
  have hperm2 : List.Perm
      (rep.activate_data.filter (fun kv => !(reportGe kv.2)) ++
        ((rep.activate_data.filter (fun kv => reportGe kv.2)) ::
          (if 3 ≤ rep.exiting_data.length then rep.exiting_data.dropLast
           else rep.exiting_data)).flatten)
      (rep.activate_data ++
        (if 3 ≤ rep.exiting_data.length then rep.exiting_data.dropLast
         else rep.exiting_data).flatten) := by
    rw [List.flatten_cons, ← List.append_assoc]
    exact List.Perm.append_right _ hperm
  have hnod := ((hperm2.map Prod.fst).nodup_iff).mpr hnodup
  rw [Reporter.generate_eq]
  refine ⟨?_, ?_, ?_, fold_genStep_rate _ _, ?_, ?_⟩
  · exact List.filter_congr (fun x _ => by rw [hfun x])
  · show some _ = some _
    rw [List.filter_congr (fun x _ => hfun x)]
  · show ((rep.activate_data.filter (fun kv => reportGe kv.2)) ::
      (if 3 ≤ rep.exiting_data.length then rep.exiting_data.dropLast
       else rep.exiting_data)).length ≤ 3
    rw [List.length_cons]
    split
    · rw [List.length_dropLast]; omega
    · omega
  · exact fun kv hkv => fold_genStep_lookup _ _ hnod kv hkv
  · intro c hc
    rcases fold_genStep_domain _ _ c hc with hmem | hbad
    · exact hmem
    · simp [alook] at hbad

/-- A concrete reporter state for the witness: two active chunks (one
finished), one past generation. -/
def sampleReporter : Reporter :=
  { activate_data := [(1, .WantNext 5), (2, .Finished 9)],
    exiting_data := [[(3, .Finished 1)]] }

/-- Witness for `reporter_generate_spec` at `sampleReporter`. -/
theorem reporter_generate_spec_witness :
    (sampleReporter.exiting_data.length ≤ 3 ∧
     ((sampleReporter.activate_data ++
        (if 3 ≤ sampleReporter.exiting_data.length
         then sampleReporter.exiting_data.dropLast
         else sampleReporter.exiting_data).flatten).map Prod.fst).Nodup) ∧
    ((sampleReporter.generate 40960).1.activate_data
      = sampleReporter.activate_data.filter (fun kv => !(isFinishedB kv.2)) ∧
    (sampleReporter.generate 40960).1.exiting_data.head?
      = some (sampleReporter.activate_data.filter (fun kv => isFinishedB kv.2)) ∧
    (sampleReporter.generate 40960).1.exiting_data.length ≤ 3 ∧
    (sampleReporter.generate 40960).2.rate_limit = some 40960 ∧
    (∀ kv ∈ (sampleReporter.generate 40960).1.activate_data
        ++ (sampleReporter.generate 40960).1.exiting_data.flatten,
      alook (sampleReporter.generate 40960).2.get_chunk kv.1
        = some (chunkRule kv.2)) ∧
    (∀ c, (alook (sampleReporter.generate 40960).2.get_chunk c).isSome = true →
      c ∈ ((sampleReporter.generate 40960).1.activate_data
        ++ (sampleReporter.generate 40960).1.exiting_data.flatten).map Prod.fst)) :=
  ⟨⟨by decide, by decide⟩,
    reporter_generate_spec sampleReporter 40960 (by decide) (by decide)⟩

/-! ## Big-endian integers and CRC-64 (src/protocol/wire/verify.rs)

Byte strings are `List Nat`; encoders only emit values `< 256`. -/

/-- The value of a big-endian byte string. -/
def beVal (l : List Nat) : Nat := l.foldl (fun a b => 256 * a + b) 0

/-- Big-endian bytes of a `u16`. -/
def be16 (n : Nat) : List Nat := [n / 2 ^ 8 % 256, n % 256]

/-- Big-endian bytes of a `u32`. -/
def be32 (n : Nat) : List Nat :=
  [n / 2 ^ 24 % 256, n / 2 ^ 16 % 256, n / 2 ^ 8 % 256, n % 256]

/-- Big-endian bytes of a `u64`. -/
def be64 (n : Nat) : List Nat :=
  [n / 2 ^ 56 % 256, n / 2 ^ 48 % 256, n / 2 ^ 40 % 256, n / 2 ^ 32 % 256,
   n / 2 ^ 24 % 256, n / 2 ^ 16 % 256, n / 2 ^ 8 % 256, n % 256]

/-- Generator polynomial of CRC-64/ECMA-182 (the `crc` crate's
`CRC_64_ECMA_182`: init 0, not reflected, xorout 0). -/
def CRC_64_ECMA_182_POLY : Nat := 0x42F0E1EBA9EA3693

/-- One left shift step of the (non-reflected) CRC-64 register. -/
def crcShift (c : Nat) : Nat :=
  if c < 2 ^ 63 then 2 * c else (2 * c - 2 ^ 64) ^^^ CRC_64_ECMA_182_POLY

/-- Absorb one byte into the CRC-64 register. -/
def crcByte (c b : Nat) : Nat := crcShift^[8] (c ^^^ (b % 256) * 2 ^ 56)

/-- `check_crc64` (src/protocol/wire/verify.rs:10-12): CRC-64/ECMA-182 over a
byte string.  Folding `Digest::update` over several buffers equals one fold
over their concatenation (`List.foldl` over `++`). -/
def check_crc64 (content : List Nat) : Nat := content.foldl crcByte 0

theorem xor_lt_two_pow {n a b : Nat} (ha : a < 2 ^ n) (hb : b < 2 ^ n) :
    a ^^^ b < 2 ^ n :=
  Nat.bitwise_lt ha hb

theorem crcShift_lt (c : Nat) (hc : c < 2 ^ 64) : crcShift c < 2 ^ 64 := by
  unfold crcShift CRC_64_ECMA_182_POLY
  split
  · omega
  · exact xor_lt_two_pow (by omega) (by norm_num)

theorem crcByte_lt (c b : Nat) (hc : c < 2 ^ 64) : crcByte c b < 2 ^ 64 := by
  unfold crcByte
  have h0 : c ^^^ (b % 256) * 2 ^ 56 < 2 ^ 64 :=
    xor_lt_two_pow hc (by omega)
  have hiter : ∀ k x, x < 2 ^ 64 → crcShift^[k] x < 2 ^ 64 := by
    intro k
    induction k with
    | zero => intro x hx; simpa using hx
    | succ n ih =>
      intro x hx
      rw [Function.iterate_succ_apply]
      exact ih _ (crcShift_lt x hx)
  exact hiter 8 _ h0

theorem foldl_crcByte_lt (l : List Nat) :
    ∀ c : Nat, c < 2 ^ 64 → l.foldl crcByte c < 2 ^ 64 := by
  induction l with
  | nil => intro c hc; simpa using hc
  | cons b t ih =>
    intro c hc
    rw [List.foldl_cons]
    exact ih _ (crcByte_lt c b hc)

theorem check_crc64_lt (content : List Nat) : check_crc64 content < 2 ^ 64 := by
  unfold check_crc64
  exact foldl_crcByte_lt content 0 (by norm_num)

/-! ## Keyring and verification (src/protocol/wire/verify.rs, key_ring.rs)

The ed25519-dalek and blake3 crates are external collaborators, abstracted
as parameters: an opaque verifying-key type `K`, signature type `S`, a
fallible key parser, a fallible signature parser, a hash, and a boolean
strict verification. -/

inductive PacketVerificationError where
  | IncorrectLength
  | PacketTooLong
  | UnknownPublicKey
  | CorruptContent
  | IncorrectSign
  deriving DecidableEq, Repr

inductive PacketVerificationData where
  | CRC64 (pkt : List Nat) (crc64 : List Nat)
  | Ed25519 (pkt : List Nat) (pub_key : List Nat) (signature : List Nat)
  deriving DecidableEq, Repr

/-- `PacketVerificationData::pkt_len` (src/protocol/wire/verify.rs:49-56). -/
def PacketVerificationData.pkt_len : PacketVerificationData → Nat
  | .CRC64 pkt _ => pkt.length
  | .Ed25519 pkt _ _ => pkt.length

structure Ed25519Ext (K S : Type) where
  parseKey : List Nat → Option K
  parseSig : List Nat → Option S
  verifyStrict : K → List Nat → S → Bool
  blake3 : List Nat → List Nat

/-- `KeyRing` restricted to what `verify` reads: the external ed25519
functions and the allow-list membership test (`public_key_rings.contains`). -/
structure KeyRing (K S : Type) where
  ext : Ed25519Ext K S
  contains : K → Bool

/-- `KeyRing::parse_and_check_key` (src/protocol/wire/verify.rs:118-125). -/
def KeyRing.parse_and_check_key {K S : Type} (kr : KeyRing K S)
    (pub_key : List Nat) : Except PacketVerificationError K :=
  match kr.ext.parseKey pub_key with
  | none => .error .IncorrectLength
  | some key =>
    if kr.contains key then .ok key else .error .UnknownPublicKey

/-- `KeyRing::verify_ed25519` (src/protocol/wire/verify.rs:104-116). -/
def KeyRing.verify_ed25519 {K S : Type} (kr : KeyRing K S)
    (pkt pub_key signature : List Nat) : Except PacketVerificationError Unit :=
  match kr.parse_and_check_key pub_key with
  | .error e => .error e
  | .ok verifying_key =>
    match kr.ext.parseSig signature with
    | none => .error .IncorrectLength
    | some s =>
      if kr.ext.verifyStrict verifying_key (kr.ext.blake3 pkt) s
      then .ok () else .error .IncorrectSign

/-- `KeyRing::verify_crc64` (src/protocol/wire/verify.rs:127-135). -/
def verify_crc64 (pkt crc64 : List Nat) : Except PacketVerificationError Unit :=
  if crc64.length = 8 then
    if beVal crc64 = check_crc64 pkt then .ok () else .error .CorruptContent
  else .error .IncorrectLength

/-- `KeyRing::verify` (src/protocol/wire/verify.rs:137-153): reject oversized
packets first, then dispatch on the verification kind. -/
def KeyRing.verify {K S : Type} (kr : KeyRing K S)
    (data : PacketVerificationData) : Except PacketVerificationError Unit :=
  if MTU < data.pkt_len then .error .PacketTooLong
  else
    match data with
    | .CRC64 pkt crc64 => verify_crc64 pkt crc64
    | .Ed25519 pkt pub_key signature => kr.verify_ed25519 pkt pub_key signature

/-- **C7.** `KeyRing::verify` returns `Err(PacketTooLong)` for every input
whose packet length exceeds `MTU = 1490`, before any checksum or signature
work (the statement holds for arbitrary checksum/signature fields); and for
every Ed25519 verification (of admissible length) whose public key parses
but is not in the allow-list, it returns `Err(UnknownPublicKey)` for every
signature field — the signature is never examined. -/
theorem keyring_verify_errors {K S : Type} (kr : KeyRing K S) :
    (∀ data : PacketVerificationData, MTU < data.pkt_len →
      kr.verify data = .error .PacketTooLong) ∧
    (∀ (pkt pub_key signature : List Nat) (k : K),
      (PacketVerificationData.Ed25519 pkt pub_key signature).pkt_len ≤ MTU →
      kr.ext.parseKey pub_key = some k →
      kr.contains k = false →
      kr.verify (.Ed25519 pkt pub_key signature) = .error .UnknownPublicKey) := by
  constructor
  · intro data hlen
    unfold KeyRing.verify
    rw [if_pos hlen]
  · intro pkt pub_key signature k hlen hkey hcont
    have h1 : kr.verify (.Ed25519 pkt pub_key signature)
        = kr.verify_ed25519 pkt pub_key signature := by
      unfold KeyRing.verify
      rw [if_neg (by omega)]
    rw [h1]
    unfold KeyRing.verify_ed25519 KeyRing.parse_and_check_key
    rw [hkey]
    simp [hcont]

/-- A concrete keyring over opaque `Nat` keys/signatures whose allow-list is
empty, for the witness. -/
def sampleKeyRing : KeyRing Nat Nat :=
  { ext := { parseKey := fun _ => some 0, parseSig := fun _ => none,
             verifyStrict := fun _ _ _ => false, blake3 := fun _ => [] },
    contains := fun _ => false }

set_option maxRecDepth 4000 in
/-- Witness for `keyring_verify_errors`: an oversized CRC packet and a
normal-sized Ed25519 packet with a non-allow-listed key. -/
theorem keyring_verify_errors_witness :
    (MTU < (PacketVerificationData.CRC64 (List.replicate 1491 0) []).pkt_len ∧
      sampleKeyRing.verify (.CRC64 (List.replicate 1491 0) [])
        = .error .PacketTooLong) ∧
    (((PacketVerificationData.Ed25519 [1] [2] [3]).pkt_len ≤ MTU ∧
      sampleKeyRing.ext.parseKey [2] = some 0 ∧
      sampleKeyRing.contains 0 = false) ∧
      sampleKeyRing.verify (.Ed25519 [1] [2] [3])
        = .error .UnknownPublicKey) :=
  ⟨⟨by
      show MTU < (List.replicate 1491 0).length
      rw [List.length_replicate]
      norm_num [MTU],
     (keyring_verify_errors sampleKeyRing).1 _
       (by
        show MTU < (List.replicate 1491 0).length
        rw [List.length_replicate]
        norm_num [MTU])⟩,
   ⟨⟨by simp [PacketVerificationData.pkt_len, MTU], rfl, rfl⟩,
     (keyring_verify_errors sampleKeyRing).2 [1] [2] [3] 0
       (by simp [PacketVerificationData.pkt_len, MTU]) rfl rfl⟩⟩

/-! ## Wire codec (src/protocol/wire/encoding.rs)

Build path for a Data packet and the full parse path.  Byte reads mirror
zerocopy's prefix reads: `byteAt` is a one-byte read, `sliceAt i n` is the
`n`-byte slice at offset `i`. -/

def byteAt (l : List Nat) (i : Nat) : Nat := (l.drop i).headD 0

def sliceAt (l : List Nat) (i n : Nat) : List Nat := (l.drop i).take n

inductive ParseError where
  | UnsupportedVerion (v : Nat)
  | UnsupportedPacketType (t : Nat)
  | UnsupportedFrameType (t : Nat)
  | InconsistentFields
  | PacketTooShort
  | BodyTooshort
  | Verification (e : PacketVerificationError)
  | FailedToParsePacketHeader
  | FailedToParseFrame
  | SliceOutOfRange
  deriving DecidableEq, Repr

/-- Frame-body dispatch of `parse_frame` (src/protocol/wire/encoding.rs:141-144
with the `try_parse` impls of src/protocol/wire/frames.rs): frame type `0x01`
is a Data frame (20-byte header — the source always instantiates
`DataFrame::<TRANSMISSION_INFO_LENGTH>`, i.e. a 12-byte info field — and the
rest is payload), `0x02` a GetChunk frame (exactly 12 bytes), `0x03` a
RateLimit frame (exactly 4 bytes); an unknown type or a failed `try_parse`
both surface as `UnsupportedFrameType`. -/
def tryParseFrame (frame_type : Nat) (data : List Nat) : Option ParsedFrameVariant :=
  if frame_type = 0x01 then
    if data.length < 8 + TRANSMISSION_INFO_LENGTH then none
    else some (.Data (beVal (sliceAt data 0 4)) (beVal (sliceAt data 4 4))
      (sliceAt data 8 TRANSMISSION_INFO_LENGTH)
      (data.drop (8 + TRANSMISSION_INFO_LENGTH)))
  else if frame_type = 0x02 then
    if data.length = 12 then
      some (.GetChunk (beVal (sliceAt data 0 4)) (beVal (sliceAt data 4 4))
        (beVal (sliceAt data 8 4)))
    else none
  else if frame_type = 0x03 then
    if data.length = 4 then some (.RateLimit (beVal (sliceAt data 0 4))) else none
  else none

/-- `parse_frame` (src/protocol/wire/encoding.rs:122-151): repeatedly read a
3-byte common frame header, slice the frame, dispatch, and advance by
`frame_length`.  The source's slice `&remained_body[3..frame_length]` panics
when `frame_length` exceeds the remaining body; that panic is modelled as the
distinguished error `SliceOutOfRange`. -/
def parse_frame (b : List Nat) : Except ParseError (List ParsedFrameVariant) :=
  if b.length = 0 then .ok []
  else if b.length < 3 then .error .BodyTooshort
  else
    let frame_type := byteAt b 0
    let frame_length := beVal (sliceAt b 1 2)
    if frame_length < 3 then .error .BodyTooshort
    else if b.length < frame_length then .error .SliceOutOfRange
    else
      match tryParseFrame frame_type (sliceAt b 3 (frame_length - 3)) with
      | none => .error (.UnsupportedFrameType frame_type)
      | some fr =>
        match parse_frame (b.drop frame_length) with
        | .error e => .error e
        | .ok frames => .ok (fr :: frames)
termination_by b.length
decreasing_by
  simp only [List.length_drop]
  omega

/-- The tail of `parse_packet` after the specific packet header has parsed:
build the verification input from the packet prefix, run `KeyRing::verify`,
then parse the frames of the body slice. -/
def parsePacketTail {K S : Type} (kr : KeyRing K S) (packet : List Nat)
    (header_length body_length : Nat) (verification_field : List Nat)
    (variant : ParsedPacketVariant) : Except ParseError ParsedPacket :=
  let pkt_prefix := packet.take (header_length + body_length)
  let vd := match variant with
    | .DataPacket => PacketVerificationData.CRC64 pkt_prefix verification_field
    | .TicketPacket pub_key _ =>
      PacketVerificationData.Ed25519 pkt_prefix pub_key verification_field
  match kr.verify vd with
  | .error e => .error (.Verification e)
  | .ok _ =>
    match parse_frame (sliceAt packet header_length body_length) with
    | .error e => .error e
    | .ok frames => .ok ⟨packet, variant, frames⟩

/-- `parse_packet` (src/protocol/wire/encoding.rs:153-206): read the 10-byte
common packet header, check the version, bounds-check
`header_length + body_length`, slice off the verification tail and the
specific header, dispatch on the packet type (`0x81` Data: empty specific
header; `0x41` Ticket: 32-byte pubkey, 8-byte timestamp, nothing trailing),
verify, then parse the body frames.  (`packet_id` is read only for logging.) -/
def parse_packet {K S : Type} (kr : KeyRing K S) (packet : List Nat) :
    Except ParseError ParsedPacket :=
  if packet.length < 10 then .error .PacketTooShort
  else
    let version := byteAt packet 0
    let packet_type := byteAt packet 1
    let header_length := beVal (sliceAt packet 2 2)
    let body_length := beVal (sliceAt packet 4 2)
    if version ≠ VERSION then .error (.UnsupportedVerion version)
    else if packet.length < header_length + body_length then .error .PacketTooShort
    else
      let verification_field := packet.drop (header_length + body_length)
      if header_length < 10 then .error .InconsistentFields
      else
        let specific := sliceAt packet 10 (header_length - 10)
        if packet_type = 0x81 then
          if specific.length = 0 then
            parsePacketTail kr packet header_length body_length
              verification_field .DataPacket
          else .error .FailedToParsePacketHeader
        else if packet_type = 0x41 then
          if specific.length = PUB_KEY_LENGTH + 8 then
            parsePacketTail kr packet header_length body_length
              verification_field
              (.TicketPacket (sliceAt specific 0 PUB_KEY_LENGTH)
                (beVal (sliceAt specific PUB_KEY_LENGTH 8)))
          else .error .FailedToParsePacketHeader
        else .error (.UnsupportedPacketType packet_type)

/-- `DataPacket::new(...).build()` (src/protocol/wire/packets.rs:99-128 and
`PacketExt::build`, src/protocol/wire/encoding.rs:21-63): the gathered
buffers are the 10-byte common packet header (version, type `0x81`, header
and body lengths, packet id), the empty Data specific header, the frame
buffer (common frame header: type `0x01` and `frame_length`, then the
`DataFrameHeader`: chunk id, frame offset, transmission info), the payload,
and the big-endian CRC-64 of the preceding buffers. -/
def buildDataPacket (chunk_id frame_offset : Nat) (transmission_info : List Nat)
    (data : List Nat) (packet_id : Nat) : List (List Nat) :=
  let specific_header : List Nat := []
  let frame_header :=
    [0x01] ++ be16 ((3 + (8 + transmission_info.length)) + data.length)
      ++ be32 chunk_id ++ be32 frame_offset ++ transmission_info
  let body_length := frame_header.length + data.length
  let common_header :=
    [VERSION, 0x81] ++ be16 (10 + 0) ++ be16 body_length ++ be32 packet_id
  let pkt_prefix := common_header ++ specific_header ++ frame_header ++ data
  [common_header, specific_header, frame_header, data,
    be64 (check_crc64 pkt_prefix)]

theorem be16_length (n : Nat) : (be16 n).length = 2 := rfl

theorem be32_length (n : Nat) : (be32 n).length = 4 := rfl

theorem be64_length (n : Nat) : (be64 n).length = 8 := rfl

theorem beVal_be16 (n : Nat) : beVal (be16 n) = n % 2 ^ 16 := by
  simp only [beVal, be16, List.foldl]
  omega

theorem beVal_be32 (n : Nat) : beVal (be32 n) = n % 2 ^ 32 := by
  simp only [beVal, be32, List.foldl]
  omega

theorem beVal_be64 (n : Nat) : beVal (be64 n) = n % 2 ^ 64 := by
  simp only [beVal, be64, List.foldl]
  omega

theorem drop_append3 {α : Type} (A B C : List α) (n : Nat)
    (h : n = A.length + B.length) :
    (A ++ (B ++ C)).drop n = C := by
  subst h
  rw [show A ++ (B ++ C) = (A ++ B) ++ C by simp [List.append_assoc]]
  exact List.drop_left' (by simp)

theorem drop_append4 {α : Type} (A B C D : List α) (n : Nat)
    (h : n = A.length + B.length + C.length) :
    (A ++ (B ++ (C ++ D))).drop n = D := by
  subst h
  rw [show A ++ (B ++ (C ++ D)) = ((A ++ B) ++ C) ++ D by simp [List.append_assoc]]
  exact List.drop_left' (by simp; omega)

theorem take_append4 {α : Type} (A B C D : List α) (n : Nat)
    (h : n = A.length + B.length + C.length) :
    (A ++ (B ++ (C ++ D))).take n = A ++ (B ++ C) := by
  subst h
  rw [show A ++ (B ++ (C ++ D)) = ((A ++ B) ++ C) ++ D by simp [List.append_assoc]]
  rw [List.take_left' (by simp; omega)]
  simp [List.append_assoc]

theorem parse_frame_nil : parse_frame [] = .ok [] := by
  rw [parse_frame]
  simp

theorem parse_frame_single_data (cid off : Nat) (info payload : List Nat)
    (hinfo : info.length = 12) (hpay : payload.length ≤ 1440)
    (hcid : cid < 2 ^ 32) (hoff : off < 2 ^ 32) :
    parse_frame (([0x01] ++ be16 (23 + payload.length)
        ++ be32 cid ++ be32 off ++ info) ++ payload)
      = .ok [.Data cid off info payload] := by
  have hshape : ([0x01] ++ be16 (23 + payload.length)
        ++ be32 cid ++ be32 off ++ info) ++ payload
      = ([0x01] ++ be16 (23 + payload.length)) ++
        (be32 cid ++ (be32 off ++ (info ++ payload))) := by
    simp [List.append_assoc]
  rw [hshape]
  set L := payload.length with hL
  set H3 := [0x01] ++ be16 (23 + L) with hH3
  set CUR := be32 cid ++ (be32 off ++ (info ++ payload)) with hCUR
  have hH3len : H3.length = 3 := by rw [hH3]; simp [be16_length]
  have hCURlen : CUR.length = 20 + L := by
    rw [hCUR]; simp [be32_length, hinfo]; omega
  have hblen : (H3 ++ CUR).length = 23 + L := by
    simp [hH3len, hCURlen]; omega
  have hft : byteAt (H3 ++ CUR) 0 = 0x01 := by
    rw [hH3]; simp [byteAt]
  have hfl : beVal (sliceAt (H3 ++ CUR) 1 2) = 23 + L := by
    have h1 : sliceAt (H3 ++ CUR) 1 2 = be16 (23 + L) := by
      rw [hH3]
      show ((((0x01 :: be16 (23 + L)) ++ CUR)).drop 1).take 2 = be16 (23 + L)
      rw [List.cons_append, List.drop_succ_cons, List.drop_zero,
        List.take_left' (be16_length _)]
    rw [h1, beVal_be16]
    omega
  have hcur : sliceAt (H3 ++ CUR) 3 (23 + L - 3) = CUR := by
    show ((H3 ++ CUR).drop 3).take (23 + L - 3) = CUR
    rw [List.drop_left' hH3len]
    rw [List.take_of_length_le (by omega)]
  have hfields : tryParseFrame 0x01 CUR = some (.Data cid off info payload) := by
    unfold tryParseFrame
    rw [if_pos rfl]
    rw [if_neg (by simp [TRANSMISSION_INFO_LENGTH]; omega)]
    have h0 : beVal (sliceAt CUR 0 4) = cid := by
      show beVal ((CUR.drop 0).take 4) = cid
      rw [List.drop_zero, hCUR, List.take_left' (be32_length _), beVal_be32]
      omega
    have h4 : beVal (sliceAt CUR 4 4) = off := by
      show beVal ((CUR.drop 4).take 4) = off
      rw [hCUR, List.drop_left' (be32_length _), List.take_left' (be32_length _),
        beVal_be32]
      omega
    have h8 : sliceAt CUR 8 TRANSMISSION_INFO_LENGTH = info := by
      show (CUR.drop 8).take TRANSMISSION_INFO_LENGTH = info
      rw [hCUR, drop_append3 _ _ _ 8 (by simp [be32_length])]
      exact List.take_left'
        (show info.length = TRANSMISSION_INFO_LENGTH from hinfo)
    have hd : CUR.drop (8 + TRANSMISSION_INFO_LENGTH) = payload := by
      rw [hCUR]
      exact drop_append4 _ _ _ _ _ (by simp [be32_length, hinfo,
        TRANSMISSION_INFO_LENGTH])
    rw [h0, h4, h8, hd]
  have hrest : (H3 ++ CUR).drop (23 + L) = [] :=
    List.drop_eq_nil_of_le (by omega)
  rw [parse_frame]
  simp only []
  rw [hblen, hft, hfl, hcur, hfields, hrest, parse_frame_nil]
  rw [if_neg (by omega), if_neg (by omega), if_neg (by omega),
    if_neg (by omega)]

theorem take_append3 {α : Type} (A B C : List α) (n : Nat)
    (h : n = A.length + B.length) :
    (A ++ (B ++ C)).take n = A ++ B := by
  subst h
  rw [show A ++ (B ++ C) = (A ++ B) ++ C by simp [List.append_assoc]]
  exact List.take_left' (by simp)

/-- **C2.** For every `chunk_id`, `frame_offset`, 12-byte
`transmission_info`, and payload of at most `DEFAULT_FRAME_LEN = 1440`
bytes, concatenating the buffers produced by `build()` on the `DataPacket`
constructed from those fields yields a packet of total length at most
`MTU = 1490` whose `parse_packet` result is `Ok` — in particular its CRC-64
verification succeeds — and whose first (only) parsed frame reproduces
`chunk_id`, `frame_offset`, `transmission_info`, and the payload bytes
exactly. -/
theorem data_packet_roundtrip {K S : Type} (kr : KeyRing K S)
    (chunk_id frame_offset packet_id : Nat) (info payload : List Nat)
    (hinfo : info.length = TRANSMISSION_INFO_LENGTH)
    (hpay : payload.length ≤ DEFAULT_FRAME_LEN)
    (hcid : chunk_id < 2 ^ 32) (hoff : frame_offset < 2 ^ 32) :
    (buildDataPacket chunk_id frame_offset info payload packet_id).flatten.length
      ≤ MTU ∧
    parse_packet kr
        (buildDataPacket chunk_id frame_offset info payload packet_id).flatten
      = .ok ⟨(buildDataPacket chunk_id frame_offset info payload packet_id).flatten,
             .DataPacket, [.Data chunk_id frame_offset info payload]⟩ := by
  have hinfo12 : info.length = 12 := hinfo
  have hpay' : payload.length ≤ 1440 := hpay
  have hbuild : (buildDataPacket chunk_id frame_offset info payload packet_id).flatten
      = ([(1:Nat), 0x81] ++ be16 10 ++ be16 (23 + payload.length) ++ be32 packet_id)
        ++ ((([0x01] ++ be16 (23 + payload.length) ++ be32 chunk_id
              ++ be32 frame_offset ++ info) ++ payload)
          ++ be64 (check_crc64
            (([(1:Nat), 0x81] ++ be16 10 ++ be16 (23 + payload.length)
                ++ be32 packet_id)
              ++ (([0x01] ++ be16 (23 + payload.length) ++ be32 chunk_id
                  ++ be32 frame_offset ++ info) ++ payload)))) := by
    simp [buildDataPacket, hinfo12, be16_length, be32_length, VERSION,
      List.append_assoc]
  rw [hbuild]
  set CH := [(1:Nat), 0x81] ++ be16 10 ++ be16 (23 + payload.length)
    ++ be32 packet_id with hCHdef
  set BODY := ([(0x01:Nat)] ++ be16 (23 + payload.length) ++ be32 chunk_id
    ++ be32 frame_offset ++ info) ++ payload with hBODYdef
  set T := be64 (check_crc64 (CH ++ BODY)) with hTdef
  have hCH : CH.length = 10 := by
    rw [hCHdef]; simp [be16_length, be32_length]
  have hBODY : BODY.length = 23 + payload.length := by
    rw [hBODYdef]; simp [be16_length, be32_length, hinfo12]; omega
  have hT : T.length = 8 := by rw [hTdef]; exact be64_length _
  have hPlen : (CH ++ (BODY ++ T)).length = 41 + payload.length := by
    simp [hCH, hBODY, hT]; omega
  have hPflat : CH ++ (BODY ++ T)
      = [(1:Nat), 0x81] ++ (be16 10 ++ (be16 (23 + payload.length)
        ++ (be32 packet_id ++ (BODY ++ T)))) := by
    rw [hCHdef]; simp [List.append_assoc]
  have h0 : byteAt (CH ++ (BODY ++ T)) 0 = 1 := by
    rw [hPflat]; rfl
  have h1 : byteAt (CH ++ (BODY ++ T)) 1 = 0x81 := by
    rw [hPflat]; rfl
  have hhl : beVal (sliceAt (CH ++ (BODY ++ T)) 2 2) = 10 := by
    rw [hPflat]
    show beVal ((([(1:Nat), 0x81] ++ (be16 10 ++ (be16 (23 + payload.length)
        ++ (be32 packet_id ++ (BODY ++ T))))).drop 2).take 2) = 10
    rw [show ([(1:Nat), 0x81] ++ (be16 10 ++ (be16 (23 + payload.length)
        ++ (be32 packet_id ++ (BODY ++ T))))).drop 2
      = be16 10 ++ (be16 (23 + payload.length)
        ++ (be32 packet_id ++ (BODY ++ T))) from rfl]
    rw [List.take_left' (be16_length _), beVal_be16]
    norm_num
  have hbl : beVal (sliceAt (CH ++ (BODY ++ T)) 4 2) = 23 + payload.length := by
    rw [hPflat]
    show beVal ((([(1:Nat), 0x81] ++ (be16 10 ++ (be16 (23 + payload.length)
        ++ (be32 packet_id ++ (BODY ++ T))))).drop 4).take 2) = 23 + payload.length
    rw [show ([(1:Nat), 0x81] ++ (be16 10 ++ (be16 (23 + payload.length)
        ++ (be32 packet_id ++ (BODY ++ T))))).drop 4
      = (be16 10 ++ (be16 (23 + payload.length)
        ++ (be32 packet_id ++ (BODY ++ T)))).drop 2 from rfl]
    rw [List.drop_left' (be16_length _), List.take_left' (be16_length _),
      beVal_be16]
    omega
  have hvf : (CH ++ (BODY ++ T)).drop (10 + (23 + payload.length)) = T := by
    rw [drop_append3 _ _ _ _ (by rw [hCH, hBODY])]
  have hsp : sliceAt (CH ++ (BODY ++ T)) 10 (10 - 10) = [] := by
    simp [sliceAt]
  have hpre : (CH ++ (BODY ++ T)).take (10 + (23 + payload.length))
      = CH ++ BODY := by
    rw [take_append3 _ _ _ _ (by rw [hCH, hBODY])]
  have hverify : kr.verify (.CRC64 (CH ++ BODY) T) = .ok () := by
    unfold KeyRing.verify
    rw [if_neg (show ¬(MTU < (PacketVerificationData.CRC64 (CH ++ BODY) T).pkt_len)
      from by
        show ¬(MTU < (CH ++ BODY).length)
        simp [hCH, hBODY, MTU]
        omega)]
    show verify_crc64 (CH ++ BODY) T = .ok ()
    unfold verify_crc64
    rw [if_pos hT, hTdef, beVal_be64,
      Nat.mod_eq_of_lt (check_crc64_lt _), if_pos rfl]
  have hframes : parse_frame (sliceAt (CH ++ (BODY ++ T)) 10 (23 + payload.length))
      = .ok [.Data chunk_id frame_offset info payload] := by
    have hb : sliceAt (CH ++ (BODY ++ T)) 10 (23 + payload.length) = BODY := by
      show ((CH ++ (BODY ++ T)).drop 10).take (23 + payload.length) = BODY
      rw [List.drop_left' hCH, List.take_left' hBODY]
    rw [hb, hBODYdef]
    exact parse_frame_single_data chunk_id frame_offset info payload
      hinfo12 hpay' hcid hoff
  constructor
  · rw [hPlen]
    show 41 + payload.length ≤ MTU
    unfold MTU
    omega
  · unfold parse_packet
    simp only []
    rw [hPlen, h0, h1, hhl, hbl]
    rw [if_neg (by omega)]
    rw [if_neg (by norm_num [VERSION])]
    rw [if_neg (by omega)]
    rw [if_neg (by omega)]
    rw [hsp, hvf]
    rw [if_pos rfl, if_pos List.length_nil]
    unfold parsePacketTail
    simp only []
    rw [hpre]
    rw [hverify, hframes]

/-- A keyring over trivial key/signature types for the round-trip witness
(the CRC path never consults it). -/
def unitKeyRing : KeyRing Unit Unit :=
  { ext := { parseKey := fun _ => none, parseSig := fun _ => none,
             verifyStrict := fun _ _ _ => false, blake3 := fun _ => [] },
    contains := fun _ => false }

/-- Witness for `data_packet_roundtrip` at the scenario-S2 inputs:
`DataPacket::new(19_260_817, 85_213, [7; 12], [88; 1440])`. -/
theorem data_packet_roundtrip_witness :
    ((List.replicate 12 7 : List Nat).length = TRANSMISSION_INFO_LENGTH ∧
     (List.replicate 1440 88 : List Nat).length ≤ DEFAULT_FRAME_LEN ∧
     19260817 < 2 ^ 32 ∧ 85213 < 2 ^ 32) ∧
    ((buildDataPacket 19260817 85213 (List.replicate 12 7)
        (List.replicate 1440 88) 42).flatten.length ≤ MTU ∧
     parse_packet unitKeyRing
        (buildDataPacket 19260817 85213 (List.replicate 12 7)
          (List.replicate 1440 88) 42).flatten
       = .ok ⟨(buildDataPacket 19260817 85213 (List.replicate 12 7)
               (List.replicate 1440 88) 42).flatten,
              .DataPacket,
              [.Data 19260817 85213 (List.replicate 12 7)
                (List.replicate 1440 88)]⟩) :=
  ⟨⟨by rw [List.length_replicate]; rfl,
    by rw [List.length_replicate]; exact Nat.le_refl _,
    by norm_num, by norm_num⟩,
   data_packet_roundtrip unitKeyRing 19260817 85213 42
     (List.replicate 12 7) (List.replicate 1440 88)
     (by rw [List.length_replicate]; rfl)
     (by rw [List.length_replicate]; exact Nat.le_refl _)
     (by norm_num) (by norm_num)⟩

end USync
